import Mathlib

/-!
Shallow embedding of the sol-creator-tracker server code
(src/server.js and src/unnamed/part_000) and theorems settling the
specification claims.  The embedding covers: the two balance-delta
extractors (the loaded-address-aware one of src/server.js and the
static-keys-only one inlined in the incremental scan), the daily-quota
RPC wrapper `fetchWithRetry`, the incremental scan, the smart-analysis
coordinator with its persistence layer, the two signature-pagination
loops, and a small event system for the single-flight guard.

Conventions: transaction signatures, timestamps (epoch milliseconds)
and calendar days are modelled as natural numbers; addresses as
strings; lamport balances as integers; the SOL total as an exact
rational (the division by 10^9 performed by the code).  Network
timing (the various sleep calls) has no observable effect and is not
modelled.  Remote calls are split into a transport layer (HTTP status
per attempt, fed to `fetchWithRetry`) and a payload layer (the JSON
bodies, given by the environment).
-/

namespace SolTracker

/-- Opaque transaction identifiers. -/
abbrev Sig := Nat

/-- Account addresses (base58 strings in the source). -/
abbrev Address := String

/-- Epoch-millisecond timestamps (`Date.now()`, `toISOString` values). -/
abbrev Timestamp := Nat

/-- Calendar days (`new Date().toDateString()` values). -/
abbrev Day := Nat

/-- One entry of a `getSignaturesForAddress` result: signature plus the
`err` flag (`true` when the on-chain error field is non-null) and the
optional block time. -/
structure SigRecord where
  signature : Sig
  err : Bool
  blockTime : Option Int
deriving DecidableEq, Repr

/-- The `meta.loadedAddresses` object of a versioned transaction. -/
structure LoadedAddresses where
  writable : List Address
  readonly : List Address
deriving DecidableEq, Repr

/-- The `meta` object of a fetched transaction: `err` is `true` when
`meta.err` is non-null; balances are lamport amounts aligned with the
combined account list. -/
structure TxMeta where
  err : Bool
  preBalances : List Int
  postBalances : List Int
  loadedAddresses : Option LoadedAddresses
deriving DecidableEq, Repr

/-- A fetched transaction body: the static account keys of
`transaction.message.accountKeys` and the optional `meta`. -/
structure TxRecord where
  accountKeys : List Address
  meta : Option TxMeta
deriving DecidableEq, Repr

/-! ### Balance-delta extractor of src/server.js (lines 167-193) -/

/-- Value of `tx.meta?.loadedAddresses?.writable ?? []`. -/
def loadedWritable (tx : TxRecord) : List Address :=
  match tx.meta with
  | none => []
  | some m =>
    match m.loadedAddresses with
    | none => []
    | some la => la.writable

/-- Value of `tx.meta?.loadedAddresses?.readonly ?? []`. -/
def loadedReadonly (tx : TxRecord) : List Address :=
  match tx.meta with
  | none => []
  | some m =>
    match m.loadedAddresses with
    | none => []
    | some la => la.readonly

/-- `findWalletIndex` (src/server.js lines 167-174): concatenates the
static keys with the loaded writable then readonly addresses, and
returns the first index equal to the wallet (`none` for the JS `-1`)
together with the combined length. -/
def findWalletIndex (wallet : Address) (tx : TxRecord) : Option Nat × Nat :=
  let staticKeys := tx.accountKeys
  let full := staticKeys ++ loadedWritable tx ++ loadedReadonly tx
  (full.findIdx? (fun k => k = wallet), full.length)

/-- `inboundLamportsForWallet` (src/server.js lines 177-193): zero when
`meta` is missing or `meta.err` is set, when the wallet is absent from
the combined account list, or when the located index falls outside
either balance array; otherwise the positive part of
`postBalances[idx] - preBalances[idx]`. -/
def inboundLamportsForWallet (wallet : Address) (tx : TxRecord) : Int :=
  match tx.meta with
  | none => 0
  | some m =>
    if m.err then 0
    else
      let pre := m.preBalances
      let post := m.postBalances
      match (findWalletIndex wallet tx).1 with
      | none => 0
      | some idx =>
        if idx < pre.length ∧ idx < post.length then
          let delta := post.getD idx 0 - pre.getD idx 0
          if delta > 0 then delta else 0
        else 0

/-! ### Daily API quota (src/unnamed/part_000 lines 393-416) -/

/-- The module-level counters `apiCallsToday` and `lastApiReset`. -/
structure ApiState where
  apiCallsToday : Nat
  lastApiReset : Day
deriving DecidableEq, Repr

/-- The conservative daily limit of `canMakeApiCall` (line 414). -/
def DAILY_LIMIT : Nat := 50000

/-- `trackApiCall` (lines 397-404): reset the counter when the day
changed, then increment it. -/
def trackApiCall (today : Day) (s : ApiState) : ApiState :=
  let s1 := if today ≠ s.lastApiReset then ⟨0, today⟩ else s
  { s1 with apiCallsToday := s1.apiCallsToday + 1 }

/-- `canMakeApiCall` (lines 406-416): reset the counter when the day
changed, then test the counter against the daily limit. -/
def canMakeApiCall (today : Day) (s : ApiState) : ApiState × Bool :=
  let s1 := if today ≠ s.lastApiReset then ⟨0, today⟩ else s
  (s1, decide (s1.apiCallsToday < DAILY_LIMIT))

/-! ### fetchWithRetry (src/unnamed/part_000 lines 422-445) -/

/-- Transport-layer outcome of one `fetch` invocation: an HTTP response
with a status code, or a thrown network error. -/
inductive FetchAttempt where
  | status (code : Nat)
  | throws
deriving DecidableEq, Repr

/-- Errors `fetchWithRetry` can propagate: the synthetic
`API_LIMIT_REACHED` error thrown before any network activity, or a
rethrown transport error. -/
inductive RpcError where
  | quotaExceeded
  | thrown
deriving DecidableEq, Repr

/-- Result of `fetchWithRetry`: the updated quota counters, the number
of times `fetch` was actually invoked, and either an error or the
returned status code (`none` models the implicit `undefined` returned
when every attempt was rate-limited). -/
structure FetchResult where
  api : ApiState
  fetchesIssued : Nat
  result : Except RpcError (Option Nat)
deriving Repr

/-- `response.ok`: status in the 2xx range. -/
def respOk (code : Nat) : Bool :=
  decide (200 ≤ code) && decide (code < 300)

/-- Retry loop of `fetchWithRetry` (lines 423-444).  `remaining` counts
the attempts left (the source iterates `i` from `0` to
`maxRetries - 1`); `net` gives the transport outcome of attempt `i`.
Before each attempt the quota is checked: when exhausted the function
throws `API_LIMIT_REACHED`, which the catch clause rethrows at once.  A
429 waits and retries; a thrown transport error retries unless this was
the last attempt, in which case it is rethrown. -/
def fetchWithRetryGo (today : Day) (net : Nat → FetchAttempt) (maxRetries : Nat) :
    Nat → ApiState → Nat → FetchResult
  | 0, api, fc => ⟨api, fc, .ok none⟩
  | remaining + 1, api, fc =>
    let i := maxRetries - (remaining + 1)
    let checked := canMakeApiCall today api
    if checked.2 = false then ⟨checked.1, fc, .error .quotaExceeded⟩
    else
      let api2 := trackApiCall today checked.1
      match net i with
      | .throws =>
        if i = maxRetries - 1 then ⟨api2, fc + 1, .error .thrown⟩
        else fetchWithRetryGo today net maxRetries remaining api2 (fc + 1)
      | .status code =>
        if code = 429 then fetchWithRetryGo today net maxRetries remaining api2 (fc + 1)
        else ⟨api2, fc + 1, .ok (some code)⟩

/-- `fetchWithRetry` with its default of three attempts. -/
def fetchWithRetry (today : Day) (net : Nat → FetchAttempt) (maxRetries : Nat)
    (api : ApiState) : FetchResult :=
  fetchWithRetryGo today net maxRetries maxRetries api 0

/-- A transport that always answers HTTP 200 on the first attempt. -/
def okNet : Nat → FetchAttempt := fun _ => .status 200

/-! ### External RPC boundary -/

/-- JSON body of a `getTransaction` response: the `error` member and
the optional `result`. -/
structure TxJson where
  error : Bool
  result : Option TxRecord
deriving DecidableEq, Repr

/-- Modelled from the spec: the external "list transaction signatures"
call (spec section 6, glossary entry Cursor).  The upstream ledger is
the full reverse-chronological (newest-first) signature history of the
tracked address; with an `until` cursor the service returns only the
records strictly newer than the cursor, that is the prefix of the
history before the cursor's position. -/
def newSignaturesSince (ledger : List SigRecord) : Option Sig → List SigRecord
  | none => ledger
  | some s => ledger.takeWhile (fun r => r.signature ≠ s)

/-- Modelled from the spec: one page of `getSignaturesForAddress`,
newest first, capped at the requested `limit`. -/
def getSignaturesPage (ledger : List SigRecord) (untilSig : Option Sig) (limit : Nat) :
    List SigRecord :=
  (newSignaturesSince ledger untilSig).take limit

/-- Environment of one scan: the upstream signature history, the
transport outcomes of the signature request and of each transaction
request, and the JSON payload returned for each fetched transaction. -/
structure RpcEnv where
  ledger : List SigRecord
  sigNet : Nat → FetchAttempt
  txNet : Sig → Nat → FetchAttempt
  txJson : Sig → TxJson

/-- An environment whose transport always answers HTTP 200. -/
def happyEnv (ledger : List SigRecord) (txJson : Sig → TxJson) : RpcEnv :=
  ⟨ledger, okNet, fun _ => okNet, txJson⟩

/-! ### Incremental scan (src/unnamed/part_000 lines 448-598) -/

/-- The `balanceChange` computation for one fetched transaction
(lines 527-558).  `none` models the paths that `continue` without a
balance computation: a JSON `error` member, a missing `result`, a set
`meta.err`, or a null `meta` (whose later `meta.preBalances` access
throws and is caught by the per-transaction catch).  The wallet is
looked up in the static `accountKeys` only, exactly as in the source;
out-of-bounds indices leave the change at zero. -/
def incTxBalanceChange (wallet : Address) (tj : TxJson) : Option Int :=
  if tj.error then none
  else
    match tj.result with
    | none => none
    | some tx =>
      match tx.meta with
      | none => none
      | some m =>
        if m.err then none
        else
          let walletIndex := tx.accountKeys.findIdx? (fun k => k = wallet)
          some (match walletIndex with
            | none => 0
            | some j =>
              if j < m.preBalances.length ∧ j < m.postBalances.length then
                m.postBalances.getD j 0 - m.preBalances.getD j 0
              else 0)

/-- Accumulators of the per-transaction loop of the incremental scan. -/
structure IncLoopOut where
  api : ApiState
  newReceived : Int
  newTransactionCount : Int
  processedCount : Nat
deriving Repr

/-- Per-transaction loop of the incremental scan (lines 494-583).  The
batching in slices of five only inserts pacing delays, so the loop is
flattened.  A record whose discovery-time `err` is set is skipped
without an RPC call; otherwise the transaction is fetched through
`fetchWithRetry` (quota errors and transport errors are swallowed by
the per-transaction catch, an undefined response triggers a caught
TypeError, a non-2xx response is skipped), and a strictly positive
balance change is added to `newReceived`. -/
def incLoop (today : Day) (wallet : Address) (env : RpcEnv) :
    List SigRecord → ApiState → Int → Int → Nat → IncLoopOut
  | [], api, r, c, p => ⟨api, r, c, p⟩
  | sig :: rest, api, r, c, p =>
    if sig.err then incLoop today wallet env rest api r c (p + 1)
    else
      let fr := fetchWithRetry today (env.txNet sig.signature) 3 api
      match fr.result with
      | .error _ => incLoop today wallet env rest fr.api r c (p + 1)
      | .ok none => incLoop today wallet env rest fr.api r c (p + 1)
      | .ok (some code) =>
        if respOk code = false then incLoop today wallet env rest fr.api r c (p + 1)
        else
          match incTxBalanceChange wallet (env.txJson sig.signature) with
          | none => incLoop today wallet env rest fr.api r c (p + 1)
          | some bc =>
            if bc > 0 then incLoop today wallet env rest fr.api (r + bc) (c + 1) (p + 1)
            else incLoop today wallet env rest fr.api r c (p + 1)

/-- Return value of `incrementalScan` (lines 479, 487, 588-592, 596),
extended with the fetched page (the local `signatures` array) and the
local `processedCount`, exposed for specification. -/
structure IncResult where
  newReceived : Int
  newTransactionCount : Int
  newSignature : Option Sig
  signatures : List SigRecord
  processedCount : Nat
deriving Repr

/-- `incrementalScan` (lines 448-598).  One `getSignaturesForAddress`
page of up to 1000 records bounded by `until = lastProcessedSignature`;
a quota or transport error on that call is caught by the outer catch
and yields the zero result, as does a non-2xx response or an empty
page.  Otherwise the page is processed and `newSignature` is its first
(newest) record. -/
def incrementalScan (today : Day) (wallet : Address) (env : RpcEnv)
    (api : ApiState) (pd : Option Sig) : ApiState × IncResult :=
  let fr := fetchWithRetry today env.sigNet 3 api
  match fr.result with
  | .error _ => (fr.api, ⟨0, 0, none, [], 0⟩)
  | .ok none => (fr.api, ⟨0, 0, none, [], 0⟩)
  | .ok (some code) =>
    if respOk code = false then (fr.api, ⟨0, 0, none, [], 0⟩)
    else
      let signatures := getSignaturesPage env.ledger pd 1000
      if signatures.isEmpty then (fr.api, ⟨0, 0, none, [], 0⟩)
      else
        let out := incLoop today wallet env signatures fr.api 0 0 0
        (out.api,
          { newReceived := out.newReceived,
            newTransactionCount := out.newTransactionCount,
            newSignature := signatures.head?.map (fun r => r.signature),
            signatures := signatures,
            processedCount := out.processedCount })

/-! ### Persistence (src/unnamed/part_000 lines 362-391) -/

/-- The persisted record of sol_data.json (the LedgerState): note the
source stores the running total in SOL (`totalSOL`), modelled as an
exact rational. -/
structure PersistedData where
  totalSOL : ℚ
  transactionCount : Int
  lastProcessedSignature : Option Sig
  lastFullScan : Option Timestamp
  lastIncrementalScan : Option Timestamp
  apiCallsToday : Nat
  lastApiReset : Day
deriving DecidableEq, Repr

/-- The fresh default returned by `loadData` when nothing is persisted
(lines 380-390). -/
def defaultData (today : Day) : PersistedData :=
  ⟨0, 0, none, none, none, 0, today⟩

/-- `loadData` (lines 374-391): the persisted record, or the fresh
default. -/
def loadData (today : Day) (disk : Option PersistedData) : PersistedData :=
  disk.getD (defaultData today)

/-- `saveData` (lines 365-372): replace the whole file; a write error
is caught, logged and swallowed, leaving the previous contents.  The
returned flag records whether the write succeeded; the function itself
always returns normally. -/
def saveData (disk : Option PersistedData) (d : PersistedData) (ioFail : Bool) :
    Option PersistedData × Bool :=
  if ioFail then (disk, false) else (some d, true)

/-! ### Smart-analysis coordinator (src/unnamed/part_000 lines 612-678) -/

/-- JS `x || 0` on a numeric field: the identity on every rational
(zero maps to zero). -/
def jsOrQ (q : ℚ) : ℚ := if q = 0 then 0 else q

/-- JS `n || 0` on an integer count. -/
def jsOrZ (n : Int) : Int := if n = 0 then 0 else n

/-- Milliseconds per week, from the full-scan age computation
(line 628). -/
def WEEK_MS : Nat := 7 * 24 * 60 * 60 * 1000

/-- The in-memory `state` object (lines 671-678). -/
structure ServerState where
  running : Bool
  totalSOL : Option ℚ
  lastUpdated : Option Timestamp
  lastRunMs : Nat
  transactionCount : Int
  apiCallsUsed : Nat
deriving Repr

/-- The `state` value at process start (lines 671-678). -/
def initialState : ServerState :=
  ⟨false, none, none, 0, 0, 0⟩

/-- Combined result of one `smartAnalysis` invocation: the in-memory
state, the quota counters and the persisted file. -/
structure ScanOutcome where
  state : ServerState
  api : ApiState
  disk : Option PersistedData

/-- The scan-type decision of `smartAnalysis` (lines 626-635): stamp
`lastFullScan` when forced, absent, or at least a week old (the full
walk itself is disabled in the source, only the timestamp moves). -/
def fullScanStamp (force : Bool) (now : Timestamp) (pd : PersistedData) : PersistedData :=
  let weeksGE1 : Bool :=
    match pd.lastFullScan with
    | none => true
    | some t => decide (WEEK_MS ≤ now - t)
  if force || pd.lastFullScan.isNone || weeksGE1 then
    { pd with lastFullScan := some now } else pd

/-- The `updatedData` record built after the incremental scan
(lines 641-649): totals merged with `|| 0` guards, the checkpoint
advanced with `||`, `lastIncrementalScan` stamped, quota counters
copied. -/
def mergeScan (now : Timestamp) (api1 : ApiState) (inc : IncResult)
    (pd1 : PersistedData) : PersistedData :=
  { pd1 with
    totalSOL := jsOrQ pd1.totalSOL + (inc.newReceived : ℚ) / 1000000000,
    transactionCount := jsOrZ pd1.transactionCount + inc.newTransactionCount,
    lastProcessedSignature := inc.newSignature.or pd1.lastProcessedSignature,
    lastIncrementalScan := some now,
    apiCallsToday := api1.apiCallsToday,
    lastApiReset := api1.lastApiReset }

/-- `smartAnalysis` (lines 612-668).  A no-op when a scan is already
running.  Otherwise: load the persisted data; stamp the full-scan
timestamp when due; run the incremental scan; build `updatedData`;
save it (failures swallowed); update the in-memory state; clear
`running` in the finally block.  `now` is the scan's wall-clock time,
`nowDay` its calendar day, `elapsedMs` its duration, `ioFail` whether
the disk write fails. -/
def smartAnalysis (wallet : Address) (force : Bool) (now : Timestamp) (nowDay : Day)
    (elapsedMs : Nat) (env : RpcEnv) (ioFail : Bool)
    (st : ServerState) (api : ApiState) (disk : Option PersistedData) : ScanOutcome :=
  if st.running then ⟨st, api, disk⟩
  else
    let pd1 := fullScanStamp force now (loadData nowDay disk)
    let scanned := incrementalScan nowDay wallet env api pd1.lastProcessedSignature
    let updated := mergeScan now scanned.1 scanned.2 pd1
    let saved := saveData disk updated ioFail
    let st2 : ServerState :=
      { running := false,
        totalSOL := some updated.totalSOL,
        lastUpdated := some now,
        lastRunMs := elapsedMs,
        transactionCount := updated.transactionCount,
        apiCallsUsed := scanned.1.apiCallsToday }
    ⟨st2, scanned.1, saved.1⟩

/-- Stamping the full-scan timestamp leaves the running total
unchanged. -/
theorem fullScanStamp_totalSOL (force : Bool) (now : Timestamp) (pd : PersistedData) :
    (fullScanStamp force now pd).totalSOL = pd.totalSOL := by
  simp only [fullScanStamp]
  split <;> rfl

/-- Stamping the full-scan timestamp leaves the count unchanged. -/
theorem fullScanStamp_transactionCount (force : Bool) (now : Timestamp)
    (pd : PersistedData) :
    (fullScanStamp force now pd).transactionCount = pd.transactionCount := by
  simp only [fullScanStamp]
  split <;> rfl

/-- Stamping the full-scan timestamp leaves the checkpoint unchanged. -/
theorem fullScanStamp_checkpoint (force : Bool) (now : Timestamp) (pd : PersistedData) :
    (fullScanStamp force now pd).lastProcessedSignature = pd.lastProcessedSignature := by
  simp only [fullScanStamp]
  split <;> rfl

/-- Inputs of one coordinator run, for chaining runs. -/
structure ScanInput where
  wallet : Address
  force : Bool
  now : Timestamp
  nowDay : Day
  elapsedMs : Nat
  env : RpcEnv
  ioFail : Bool

/-- One coordinator run on the threaded system state. -/
def runScan (inp : ScanInput) (o : ScanOutcome) : ScanOutcome :=
  smartAnalysis inp.wallet inp.force inp.now inp.nowDay inp.elapsedMs inp.env inp.ioFail
    o.state o.api o.disk

/-- A sequence of coordinator runs. -/
def runScans (inps : List ScanInput) (o : ScanOutcome) : ScanOutcome :=
  inps.foldl (fun acc inp => runScan inp acc) o

/-- The persisted running total (zero when nothing is persisted yet). -/
def persistedTotal (disk : Option PersistedData) : ℚ :=
  match disk with
  | none => 0
  | some d => d.totalSOL

/-- The persisted checkpoint signature. -/
def persistedCheckpoint (disk : Option PersistedData) : Option Sig :=
  match disk with
  | none => none
  | some d => d.lastProcessedSignature

/-! ### Signature pagination of comprehensiveSOLAnalysis
(src/unnamed/part_000 lines 40-121) -/

/-- Page-size limit of the signature requests (`limit: 1000`). -/
def SIG_PAGE_LIMIT : Nat := 1000

/-- The hard page cap `MAX_PAGES = 1000` (line 49). -/
def MAX_PAGES : Nat := 1000

/-- Console output the signature loop can emit.  The first three
constructors correspond to the `console.log` calls at lines 95, 103 and
107 of the source.  `truncatedHistory` is modelled from the spec: the
`TruncatedHistory` warning that sections 4.2 and 7 require when the
page cap stops pagination; the source contains no corresponding output,
which the theorems below make precise. -/
inductive PageEvent where
  | reachedEndOfHistory
  | pageProgress (pages : Nat) (totalSigs : Nat)
  | reachedEndShortPage (n : Nat)
  | truncatedHistory
deriving DecidableEq, Repr

/-- Loop state of phase 1 of `comprehensiveSOLAnalysis`: the collected
signatures, the `before` cursor, the `hasMore` flag, the page counter
and the emitted console events. -/
structure Phase1State where
  allSignatures : List SigRecord
  before : Option Sig
  hasMore : Bool
  pageCount : Nat
  events : List PageEvent
deriving Repr

/-- One execution of the `while (hasMore && pageCount < MAX_PAGES)`
loop (lines 54-119), on the successful-response path: the source is a
function from the `before` cursor to the next page.  `fuel` is the
number of loop iterations the cap still allows
(`MAX_PAGES - pageCount`); an empty page or a page shorter than the
limit clears `hasMore`, a full page advances the cursor to its last
record and continues. -/
def phase1Go (src : Option Sig → List SigRecord) : Nat → Phase1State → Phase1State
  | 0, s => s
  | fuel + 1, s =>
    if s.hasMore = false then s
    else
      let page := src s.before
      if page.isEmpty then
        { s with hasMore := false, events := s.events ++ [.reachedEndOfHistory] }
      else
        let all1 := s.allSignatures ++ page
        let pc1 := s.pageCount + 1
        let ev1 := if pc1 % 10 = 0 then
          s.events ++ [.pageProgress pc1 all1.length] else s.events
        if page.length < SIG_PAGE_LIMIT then
          { allSignatures := all1,
            before := page.getLast?.map (fun r => r.signature),
            hasMore := false,
            pageCount := pc1,
            events := ev1 ++ [.reachedEndShortPage page.length] }
        else
          phase1Go src fuel
            { allSignatures := all1,
              before := page.getLast?.map (fun r => r.signature),
              hasMore := true,
              pageCount := pc1,
              events := ev1 }

/-- Phase 1 of `comprehensiveSOLAnalysis`, started from the initial
loop state of lines 45-48. -/
def comprehensivePhase1 (src : Option Sig → List SigRecord) : Phase1State :=
  phase1Go src MAX_PAGES ⟨[], none, true, 0, []⟩

/-! ### getAllSignatures (src/server.js lines 143-164) -/

/-- The signature-count safety cap of `getAllSignatures` (line 161). -/
def SIG_COUNT_CAP : Nat := 1000000

/-- The `while (true)` loop of `getAllSignatures`: break on an empty
page, otherwise append the page, advance the cursor to its last record,
and break once more than a million signatures are collected.  `fuel`
bounds the recursion; the termination theorems show the fuel used below
never runs out. -/
def getAllSignaturesGo (src : Option Sig → List SigRecord) :
    Nat → List SigRecord → Option Sig → List SigRecord
  | 0, all, _ => all
  | fuel + 1, all, before =>
    let batch := src before
    if batch.isEmpty then all
    else
      let all1 := all ++ batch
      let before1 := batch.getLast?.map (fun r => r.signature)
      if SIG_COUNT_CAP < all1.length then all1
      else getAllSignaturesGo src fuel all1 before1

/-- `getAllSignatures`, with fuel exceeding the iterations the
signature cap can ever allow. -/
def getAllSignatures (src : Option Sig → List SigRecord) : List SigRecord :=
  getAllSignaturesGo src (SIG_COUNT_CAP + 2) [] none

/-! ### Single-flight guard (src/unnamed/part_000 lines 612-620,
666-667, 690-704, 737-741) -/

/-- Guard state of the coordinator: the `state.running` flag, plus the
number of `smartAnalysis` bodies that have passed the guard and not yet
reached their finally block. -/
structure CoordState where
  running : Bool
  active : Nat
deriving DecidableEq, Repr

/-- The guard state at process start. -/
def coordInit : CoordState := ⟨false, 0⟩

/-- Reply of the refresh endpoint: HTTP 429 with "Analysis already
running", or the acceptance body. -/
inductive RefreshReply where
  | conflict
  | accepted
deriving DecidableEq, Repr

/-- The `/api/refresh` handler (lines 690-704): a running scan yields
the 429 conflict and starts nothing; otherwise `smartAnalysis` is
started in the background, whose synchronous prefix (lines 613-618,
with no await between the guard test and the assignment) checks the
guard again and sets `running`. -/
def refreshPost (s : CoordState) : CoordState × RefreshReply :=
  if s.running then (s, .conflict)
  else (⟨true, s.active + 1⟩, .accepted)

/-- A scheduled or startup invocation of `smartAnalysis` (lines
612-620): return at once when a scan is running, otherwise pass the
guard. -/
def scanEntry (s : CoordState) : CoordState :=
  if s.running then s else ⟨true, s.active + 1⟩

/-- Completion of one started scan: its finally block (line 666)
clears `running`.  A finally block runs exactly once per started scan,
so the event applies only when a scan is active. -/
def scanFinish (s : CoordState) : CoordState :=
  if s.active = 0 then s else ⟨false, s.active - 1⟩

/-- External events driving the guard. -/
inductive CoordEvent where
  | refresh
  | trigger
  | finish
deriving DecidableEq, Repr

/-- Transition of the guard state on one event. -/
def coordStep (s : CoordState) : CoordEvent → CoordState
  | .refresh => (refreshPost s).1
  | .trigger => scanEntry s
  | .finish => scanFinish s

/-- The guard state after a sequence of events from process start. -/
def coordRun (es : List CoordEvent) : CoordState :=
  es.foldl coordStep coordInit

/-! ## Theorems -/

/-! ### C3: failed transactions contribute zero -/

/-- C3: for every transaction record whose `meta.err` field is
non-null, both balance-delta extractions return zero: the
`inboundLamportsForWallet` extractor of src/server.js, and the inline
extraction of the incremental scan, which skips the transaction
(contributing nothing), even when the balance arrays show a positive
difference at the tracked index. -/
theorem c3_failed_transaction_zero_delta (wallet : Address) (tx : TxRecord) (m : TxMeta)
    (hm : tx.meta = some m) (herr : m.err = true) :
    inboundLamportsForWallet wallet tx = 0 ∧
    incTxBalanceChange wallet ⟨false, some tx⟩ = none := by
  constructor
  · simp [inboundLamportsForWallet, hm, herr]
  · simp [incTxBalanceChange, hm, herr]

/-- A failed transaction whose balance arrays show a positive
difference (989 lamports) at the tracked address's index 0. -/
def failedTx : TxRecord :=
  { accountKeys := ["Wallet", "Other"],
    meta := some { err := true, preBalances := [10, 0], postBalances := [999, 0],
                   loadedAddresses := none } }

/-- Witness for C3 at a concrete failed transaction with a positive
balance difference at the wallet's index. -/
theorem c3_failed_transaction_zero_delta_witness :
    failedTx.meta.map TxMeta.err = some true ∧
    (failedTx.meta.map fun m => m.postBalances.getD 0 0 - m.preBalances.getD 0 0) =
      some 989 ∧
    inboundLamportsForWallet "Wallet" failedTx = 0 ∧
    incTxBalanceChange "Wallet" ⟨false, some failedTx⟩ = none := by
  have h := c3_failed_transaction_zero_delta "Wallet" failedTx
    { err := true, preBalances := [10, 0], postBalances := [999, 0],
      loadedAddresses := none } rfl rfl
  exact ⟨rfl, rfl, h.1, h.2⟩

/-! ### C4: loaded-address indexing -/

/-- A versioned transaction whose tracked address "Wallet" appears only
in `loadedAddresses.writable` (position 0), not among the two static
account keys; the balance arrays show a 20-lamport inbound at the
combined index 2. -/
def versionedTx : TxRecord :=
  { accountKeys := ["Alice", "Bob"],
    meta := some { err := false, preBalances := [5, 5, 10], postBalances := [5, 5, 30],
                   loadedAddresses := some { writable := ["Wallet"], readonly := [] } } }

/-- C4, evaluated at the failing input: the src/server.js extractor
locates index `static length + position in writable list = 2` and
computes the 20-lamport delta, as the claim states; the incremental
scan's inline extraction (the other code location the claim names)
searches only the static account keys, finds no index, and contributes
zero, so the claim fails on that code path. -/
theorem c4_loaded_address_divergence :
    findWalletIndex "Wallet" versionedTx =
      (some (versionedTx.accountKeys.length + 0), 3) ∧
    inboundLamportsForWallet "Wallet" versionedTx = 20 ∧
    incTxBalanceChange "Wallet" ⟨false, some versionedTx⟩ = some 0 := by
  refine ⟨rfl, rfl, rfl⟩

/-! ### C7: single-flight guard -/

/-- Auxiliary invariant: the number of scans between their guard and
their finally block equals one exactly while `running` is set. -/
theorem coordRun_inv (es : List CoordEvent) (s : CoordState)
    (h : s.active = if s.running then 1 else 0) :
    (es.foldl coordStep s).active = if (es.foldl coordStep s).running then 1 else 0 := by
  induction es generalizing s with
  | nil => simpa using h
  | cons e rest ih =>
    refine ih _ ?_
    cases e <;>
      simp only [coordStep, refreshPost, scanEntry, scanFinish] <;>
      split_ifs at h ⊢ <;> simp_all

/-- C7: after every sequence of refresh requests, scheduled triggers
and scan completions from process start, at most one scan is active;
moreover, while `running` is set a refresh request receives the 429
conflict reply and leaves the guard state unchanged (no second scan is
started), and a scheduled scan entry returns without scanning. -/
theorem c7_single_flight (es : List CoordEvent) :
    (coordRun es).active ≤ 1 ∧
    ((coordRun es).running = true →
      (refreshPost (coordRun es)).2 = RefreshReply.conflict ∧
      (refreshPost (coordRun es)).1 = coordRun es ∧
      scanEntry (coordRun es) = coordRun es) := by
  have h := coordRun_inv es coordInit (by simp [coordInit])
  rw [show coordRun es = es.foldl coordStep coordInit from rfl] at *
  constructor
  · split at h <;> omega
  · intro hr
    refine ⟨?_, ?_, ?_⟩ <;> simp [refreshPost, scanEntry, hr]

/-- Witness for C7: after a scheduled trigger the guard is running,
the invariant holds, and a refresh request conflicts. -/
theorem c7_single_flight_witness :
    (coordRun [CoordEvent.trigger]).running = true ∧
    (coordRun [CoordEvent.trigger]).active ≤ 1 ∧
    (refreshPost (coordRun [CoordEvent.trigger])).2 = RefreshReply.conflict := by
  have h := c7_single_flight [CoordEvent.trigger]
  exact ⟨rfl, h.1, (h.2 rfl).1⟩

/-! ### C5: pagination termination -/

/-- The signature loop never emits the `TruncatedHistory` warning the
spec calls for: no branch of the source logs one. -/
theorem phase1Go_no_trunc (src : Option Sig → List SigRecord) :
    ∀ (fuel : Nat) (s : Phase1State),
      PageEvent.truncatedHistory ∉ s.events →
      PageEvent.truncatedHistory ∉ (phase1Go src fuel s).events := by
  intro fuel
  induction fuel with
  | zero => intro s hs; simpa [phase1Go] using hs
  | succ n ih =>
    intro s hs
    simp only [phase1Go]
    split
    · exact hs
    · split
      · simp [hs]
      · split
        · by_cases h4 : (s.pageCount + 1) % 10 = 0 <;> simp [h4, hs]
        · apply ih
          by_cases h4 : (s.pageCount + 1) % 10 = 0 <;> simp [h4, hs]

/-- The page counter grows by at most the remaining fuel. -/
theorem phase1Go_pageCount_le (src : Option Sig → List SigRecord) :
    ∀ (fuel : Nat) (s : Phase1State),
      (phase1Go src fuel s).pageCount ≤ s.pageCount + fuel := by
  intro fuel
  induction fuel with
  | zero => intro s; simp [phase1Go]
  | succ n ih =>
    intro s
    simp only [phase1Go]
    split
    · omega
    · split
      · simp
      · split
        · simp
        · refine le_trans (ih _) ?_
          simp
          omega

/-- Every run of the signature loop ends either with `hasMore` cleared
(an empty or short page was seen) or with the fuel, that is the page
cap, consumed. -/
theorem phase1Go_dichotomy (src : Option Sig → List SigRecord) :
    ∀ (fuel : Nat) (s : Phase1State),
      (phase1Go src fuel s).hasMore = false ∨
      (phase1Go src fuel s).pageCount = s.pageCount + fuel := by
  intro fuel
  induction fuel with
  | zero => intro s; right; simp [phase1Go]
  | succ n ih =>
    intro s
    simp only [phase1Go]
    split
    · next h => exact Or.inl h
    · split
      · left; rfl
      · split
        · left; rfl
        · rcases ih _ with h | h
          · exact Or.inl h
          · right
            rw [h]
            simp
            omega

/-- Against a source of full pages the loop keeps `hasMore` set and
consumes all its fuel: it is stopped only by the page cap. -/
theorem phase1Go_full (src : Option Sig → List SigRecord)
    (hfull : ∀ c, (src c).length = SIG_PAGE_LIMIT) :
    ∀ (fuel : Nat) (s : Phase1State), s.hasMore = true →
      (phase1Go src fuel s).pageCount = s.pageCount + fuel ∧
      (phase1Go src fuel s).hasMore = true := by
  intro fuel
  induction fuel with
  | zero => intro s hs; simp [phase1Go, hs]
  | succ n ih =>
    intro s hs
    simp only [phase1Go]
    split
    · next h => rw [hs] at h; cases h
    · split
      · next h =>
        exfalso
        have hl := hfull s.before
        simp_all [List.isEmpty_iff, SIG_PAGE_LIMIT]
      · split
        · next h =>
          exfalso
          rw [hfull s.before] at h
          exact absurd h (lt_irrefl _)
        · refine ⟨?_, (ih _ rfl).2⟩
          rw [(ih _ rfl).1]
          simp
          omega

/-- Against a never-empty source `getAllSignatures` is stopped by its
signature-count cap: once enough fuel is available relative to the cap,
the result exceeds a million records. -/
theorem getAllSignaturesGo_cap (src : Option Sig → List SigRecord)
    (h : ∀ c, src c ≠ []) :
    ∀ (fuel : Nat) (all : List SigRecord) (before : Option Sig),
      SIG_COUNT_CAP + 1 ≤ fuel + all.length →
      SIG_COUNT_CAP < (getAllSignaturesGo src fuel all before).length := by
  intro fuel
  induction fuel with
  | zero =>
    intro all before hb
    simp only [getAllSignaturesGo]
    omega
  | succ n ih =>
    intro all before hb
    simp only [getAllSignaturesGo]
    have hne : (src before).isEmpty = false := by
      cases hsrc : src before with
      | nil => exact absurd hsrc (h before)
      | cons a l => simp
    have hpos : 1 ≤ (src before).length := by
      cases hsrc : src before with
      | nil => exact absurd hsrc (h before)
      | cons a l => simp
    rw [if_neg (by simp [hne])]
    split_ifs with hcap
    · simpa using hcap
    · refine ih _ _ ?_
      simp only [List.length_append]
      omega

/-- C5 amended: for every signature source (modelled as a function from
the cursor to the next page) the comprehensive signature loop
terminates with its page counter at most the cap; every run ends either
normally, with `hasMore` cleared by an empty or short page, or with the
page counter at the cap; a source of full pages is stopped exactly by
the cap, after which no `TruncatedHistory` warning is reported (the
amendment: the source logs nothing of the kind); an immediately empty
source ends phase 1 normally; and `getAllSignatures` of src/server.js
is stopped by its million-signature safety cap against a never-empty
source while an immediately empty source ends it with no records. -/
theorem c5_pagination_termination :
    (∀ src, (comprehensivePhase1 src).pageCount ≤ MAX_PAGES) ∧
    (∀ src, (comprehensivePhase1 src).hasMore = false ∨
      (comprehensivePhase1 src).pageCount = MAX_PAGES) ∧
    (∀ src, (∀ c, (src c).length = SIG_PAGE_LIMIT) →
      (comprehensivePhase1 src).pageCount = MAX_PAGES ∧
      (comprehensivePhase1 src).hasMore = true ∧
      PageEvent.truncatedHistory ∉ (comprehensivePhase1 src).events) ∧
    (∀ src, src none = [] →
      comprehensivePhase1 src = ⟨[], none, false, 0, [.reachedEndOfHistory]⟩) ∧
    (∀ src, (∀ c, src c ≠ []) → SIG_COUNT_CAP < (getAllSignatures src).length) ∧
    (∀ src, src none = [] → getAllSignatures src = []) := by
  refine ⟨?_, ?_, ?_, ?_, ?_, ?_⟩
  · intro src
    simpa using phase1Go_pageCount_le src MAX_PAGES ⟨[], none, true, 0, []⟩
  · intro src
    simpa using phase1Go_dichotomy src MAX_PAGES ⟨[], none, true, 0, []⟩
  · intro src hfull
    have h1 := phase1Go_full src hfull MAX_PAGES ⟨[], none, true, 0, []⟩ rfl
    have h2 := phase1Go_no_trunc src MAX_PAGES ⟨[], none, true, 0, []⟩ (by simp)
    exact ⟨by simpa using h1.1, h1.2, h2⟩
  · intro src hempty
    rw [comprehensivePhase1, show MAX_PAGES = 999 + 1 from rfl, phase1Go]
    simp [hempty]
  · intro src hne
    exact getAllSignaturesGo_cap src hne (SIG_COUNT_CAP + 2) [] none (by simp)
  · intro src hempty
    rw [getAllSignatures, show SIG_COUNT_CAP + 2 = (SIG_COUNT_CAP + 1) + 1 from rfl,
      getAllSignaturesGo]
    simp [hempty]

/-- A source that always returns a full page of 1000 records. -/
def fullPageSrc : Option Sig → List SigRecord :=
  fun _ => List.replicate 1000 ⟨0, false, none⟩

/-- A source whose history is empty. -/
def emptySrc : Option Sig → List SigRecord := fun _ => []

/-- Every page of the full-page source has exactly the page limit. -/
theorem fullPageSrc_length (c : Option Sig) :
    (fullPageSrc c).length = SIG_PAGE_LIMIT := by
  unfold fullPageSrc
  rw [List.length_replicate]
  rfl

/-- No page of the full-page source is empty. -/
theorem fullPageSrc_ne_nil (c : Option Sig) : fullPageSrc c ≠ [] := by
  intro h
  have hl := congrArg List.length h
  rw [fullPageSrc_length c] at hl
  simp [SIG_PAGE_LIMIT] at hl

/-- Counterexample for C5 as stated: against a source of full pages the
loop stops at the page cap (`pageCount = MAX_PAGES` with `hasMore`
still set), yet no `TruncatedHistory` warning is among the emitted
events — the source reports nothing when the cap is hit. -/
theorem c5_counterexample_no_truncation_warning :
    (comprehensivePhase1 fullPageSrc).pageCount = MAX_PAGES ∧
    (comprehensivePhase1 fullPageSrc).hasMore = true ∧
    PageEvent.truncatedHistory ∉ (comprehensivePhase1 fullPageSrc).events := by
  have h1 := phase1Go_full fullPageSrc fullPageSrc_length MAX_PAGES ⟨[], none, true, 0, []⟩ rfl
  have h2 := phase1Go_no_trunc fullPageSrc MAX_PAGES ⟨[], none, true, 0, []⟩ (by simp)
  exact ⟨by simpa using h1.1, h1.2, h2⟩

/-- Witness for C5 amended: the hypotheses discharged at the full-page
source and at the empty source. -/
theorem c5_pagination_termination_witness :
    (comprehensivePhase1 fullPageSrc).pageCount = MAX_PAGES ∧
    PageEvent.truncatedHistory ∉ (comprehensivePhase1 fullPageSrc).events ∧
    comprehensivePhase1 emptySrc = ⟨[], none, false, 0, [.reachedEndOfHistory]⟩ ∧
    SIG_COUNT_CAP < (getAllSignatures fullPageSrc).length ∧
    getAllSignatures emptySrc = [] := by
  obtain ⟨-, -, hfull, hemptyP, hcap, hemptyA⟩ := c5_pagination_termination
  have h1 := hfull fullPageSrc fullPageSrc_length
  refine ⟨h1.1, h1.2.2, hemptyP emptySrc rfl, ?_, hemptyA emptySrc rfl⟩
  exact hcap fullPageSrc fullPageSrc_ne_nil

/-! ### Quota and transport evaluation lemmas -/

/-- JS `q || 0` is the identity on every rational total. -/
theorem jsOrQ_eq (q : ℚ) : jsOrQ q = q := by
  unfold jsOrQ; split <;> simp_all

/-- JS `n || 0` is the identity on every integer count. -/
theorem jsOrZ_eq (n : Int) : jsOrZ n = n := by
  unfold jsOrZ; split <;> simp_all

/-- With the daily quota exhausted on the same calendar day, the retry
loop fails at once with the quota error, touching neither the counters
nor the network. -/
theorem fetchWithRetryGo_quota (today : Day) (net : Nat → FetchAttempt)
    (maxRetries : Nat) (api : ApiState) (fc : Nat)
    (hday : api.lastApiReset = today) (hq : DAILY_LIMIT ≤ api.apiCallsToday) :
    ∀ remaining, 0 < remaining →
      fetchWithRetryGo today net maxRetries remaining api fc =
        ⟨api, fc, .error .quotaExceeded⟩ := by
  intro remaining hrem
  cases remaining with
  | zero => omega
  | succ n =>
    have hcan : canMakeApiCall today api = (api, false) := by
      simp [canMakeApiCall, hday]
      omega
    simp [fetchWithRetryGo, hcan]

/-- With the daily quota exhausted on the same calendar day,
`fetchWithRetry` fails at once with the quota error and issues no
network request. -/
theorem fetchWithRetry_quota (today : Day) (net : Nat → FetchAttempt)
    (maxRetries : Nat) (api : ApiState)
    (hday : api.lastApiReset = today) (hq : DAILY_LIMIT ≤ api.apiCallsToday)
    (hpos : 0 < maxRetries) :
    fetchWithRetry today net maxRetries api = ⟨api, 0, .error .quotaExceeded⟩ :=
  fetchWithRetryGo_quota today net maxRetries api 0 hday hq maxRetries hpos

/-- With quota available on the same calendar day, a call against the
always-200 transport succeeds on its first attempt, incrementing the
counter once and issuing exactly one request. -/
theorem fetchWithRetryGo_ok (today : Day) (api : ApiState) (maxRetries fc : Nat)
    (hday : api.lastApiReset = today) (hq : api.apiCallsToday < DAILY_LIMIT) :
    ∀ n, fetchWithRetryGo today okNet maxRetries (n + 1) api fc =
      ⟨⟨api.apiCallsToday + 1, today⟩, fc + 1, .ok (some 200)⟩ := by
  intro n
  have hcan : canMakeApiCall today api = (api, true) := by
    simp [canMakeApiCall, hday, hq]
  have htrack : trackApiCall today api = ⟨api.apiCallsToday + 1, today⟩ := by
    simp [trackApiCall, hday]
  simp [fetchWithRetryGo, hcan, htrack, okNet]

/-- With quota available on the same calendar day, a call against the
always-200 transport succeeds on its first attempt, incrementing the
counter once and issuing exactly one request. -/
theorem fetchWithRetry_ok (today : Day) (api : ApiState)
    (hday : api.lastApiReset = today) (hq : api.apiCallsToday < DAILY_LIMIT) :
    fetchWithRetry today okNet 3 api =
      ⟨⟨api.apiCallsToday + 1, today⟩, 1, .ok (some 200)⟩ :=
  fetchWithRetryGo_ok today api 3 0 hday hq 2

/-! ### C2: quota enforcement and persistence on abort -/

/-- C2 amended: once `apiCallsToday` has reached the daily limit (and
the day has not rolled over), the next call fails immediately with the
quota error and no network request is issued; the incremental scan
swallows that error and returns the zero result, and `smartAnalysis`
does not abort: it persists the ledger record with totals, count and
checkpoint unchanged but with `lastIncrementalScan` stamped to the
run's own time, and reports the run as a success in the in-memory
state. -/
theorem c2_quota_enforcement (today : Day) (api : ApiState)
    (hday : api.lastApiReset = today) (hq : DAILY_LIMIT ≤ api.apiCallsToday) :
    (∀ net maxRetries, 0 < maxRetries →
      fetchWithRetry today net maxRetries api = ⟨api, 0, .error .quotaExceeded⟩) ∧
    (∀ wallet env c, incrementalScan today wallet env api c = (api, ⟨0, 0, none, [], 0⟩)) ∧
    (∀ wallet force now elapsedMs env st disk, st.running = false →
      (smartAnalysis wallet force now today elapsedMs env false st api disk).disk.map
          (fun d => d.totalSOL) = some (loadData today disk).totalSOL ∧
      (smartAnalysis wallet force now today elapsedMs env false st api disk).disk.map
          (fun d => d.transactionCount) = some (loadData today disk).transactionCount ∧
      (smartAnalysis wallet force now today elapsedMs env false st api disk).disk.map
          (fun d => d.lastProcessedSignature) =
        some (loadData today disk).lastProcessedSignature ∧
      (smartAnalysis wallet force now today elapsedMs env false st api disk).disk.map
          (fun d => d.lastIncrementalScan) = some (some now) ∧
      (smartAnalysis wallet force now today elapsedMs env false st api disk).state.running
          = false ∧
      (smartAnalysis wallet force now today elapsedMs env false st api disk).state.lastUpdated
          = some now) := by
  have hfetch : ∀ (net : Nat → FetchAttempt) maxRetries, 0 < maxRetries →
      fetchWithRetry today net maxRetries api = ⟨api, 0, .error .quotaExceeded⟩ :=
    fun net maxRetries hpos => fetchWithRetry_quota today net maxRetries api hday hq hpos
  have hscan : ∀ (wallet : Address) (env : RpcEnv) (c : Option Sig),
      incrementalScan today wallet env api c = (api, ⟨0, 0, none, [], 0⟩) := by
    intro wallet env c
    rw [incrementalScan, hfetch env.sigNet 3 (by omega)]
  refine ⟨hfetch, hscan, ?_⟩
  intro wallet force now elapsedMs env st disk hrun
  rw [smartAnalysis, if_neg (by simp [hrun])]
  simp [hscan, mergeScan, saveData, jsOrQ_eq, jsOrZ_eq, Option.or,
    fullScanStamp_totalSOL, fullScanStamp_transactionCount, fullScanStamp_checkpoint]

/-- The quota-exhausted persisted record used in the C2 witness and
counterexample: totals 7 SOL over 3 transfers, checkpoint signature 42,
full scan at time 0, incremental scan at time 1. -/
def cexP : PersistedData := ⟨7, 3, some 42, some 0, some 1, 0, 0⟩

/-- A transaction payload source returning a missing result for every
signature. -/
def trivialTxJson : Sig → TxJson := fun _ => ⟨false, none⟩

/-- Counterexample for C2 as stated: with the quota exhausted
(`apiCallsToday = 50000` on day 0) the scan is not aborted with the
persisted record left exactly as last saved — the coordinator persists
a record whose `lastIncrementalScan` is the failed run's own time. -/
theorem c2_counterexample_partial_persist :
    (smartAnalysis "W" false 5 0 0 (happyEnv [] trivialTxJson) false
        initialState ⟨50000, 0⟩ (some cexP)).disk ≠ some cexP ∧
    (smartAnalysis "W" false 5 0 0 (happyEnv [] trivialTxJson) false
        initialState ⟨50000, 0⟩ (some cexP)).disk.map (fun d => d.lastIncrementalScan)
      = some (some 5) ∧
    cexP.lastIncrementalScan = some 1 := by
  have hscan : ∀ c, incrementalScan 0 "W" (happyEnv [] trivialTxJson) ⟨50000, 0⟩ c
      = (⟨50000, 0⟩, ⟨0, 0, none, [], 0⟩) := by
    intro c
    rw [incrementalScan,
      fetchWithRetry_quota 0 (happyEnv [] trivialTxJson).sigNet 3 ⟨50000, 0⟩ rfl
        (by decide) (by decide)]
  have hmap : (smartAnalysis "W" false 5 0 0 (happyEnv [] trivialTxJson) false
      initialState ⟨50000, 0⟩ (some cexP)).disk.map (fun d => d.lastIncrementalScan)
      = some (some 5) := by
    rw [smartAnalysis, if_neg (by simp [initialState])]
    simp [hscan, mergeScan, saveData]
  refine ⟨?_, hmap, rfl⟩
  intro h
  have h2 := congrArg (fun d => d.map (fun x => x.lastIncrementalScan)) h
  simp only at h2
  rw [hmap] at h2
  simp [cexP] at h2

/-- Witness for C2 amended at a concrete exhausted-quota state. -/
theorem c2_quota_enforcement_witness :
    fetchWithRetry 0 okNet 3 ⟨50000, 0⟩ = ⟨⟨50000, 0⟩, 0, .error .quotaExceeded⟩ ∧
    incrementalScan 0 "W" (happyEnv [] trivialTxJson) ⟨50000, 0⟩ (some 42)
      = (⟨50000, 0⟩, ⟨0, 0, none, [], 0⟩) ∧
    (smartAnalysis "W" false 5 0 0 (happyEnv [] trivialTxJson) false
        initialState ⟨50000, 0⟩ (some cexP)).disk.map (fun d => d.totalSOL)
      = some cexP.totalSOL := by
  have h := c2_quota_enforcement 0 ⟨50000, 0⟩ rfl (by decide)
  refine ⟨h.1 okNet 3 (by decide), h.2.1 "W" (happyEnv [] trivialTxJson) (some 42), ?_⟩
  have h3 := (h.2.2 "W" false 5 0 (happyEnv [] trivialTxJson) initialState (some cexP) rfl).1
  simpa using h3

/-! ### C1: the incremental page and the checkpoint -/

/-- Whenever the signature request comes back 200, the incremental
scan's iterated page is exactly the (up to 1000 records) result of the
bounded signature request, and `newSignature` is its newest record. -/
theorem incrementalScan_page (today : Day) (wallet : Address)
    (L : List SigRecord) (T : Sig → TxJson) (api : ApiState) (c : Option Sig)
    (a1 : ApiState)
    (hf : fetchWithRetry today (happyEnv L T).sigNet 3 api = ⟨a1, 1, .ok (some 200)⟩) :
    (incrementalScan today wallet (happyEnv L T) api c).2.signatures
        = getSignaturesPage L c 1000 ∧
    (incrementalScan today wallet (happyEnv L T) api c).2.newSignature
        = (getSignaturesPage L c 1000).head?.map (fun r => r.signature) := by
  rw [incrementalScan, hf]
  by_cases hp : (getSignaturesPage L c 1000).isEmpty
  · have hpl : getSignaturesPage L c 1000 = [] := List.isEmpty_iff.mp hp
    simp [happyEnv, respOk, hpl]
  · simp only [happyEnv] at hp ⊢
    simp [respOk, hp]

/-- On the happy transport path with quota available, the incremental
scan's iterated page is exactly the (up to 1000 records) result of the
bounded signature request, and `newSignature` is its newest record. -/
theorem incrementalScan_happy (today : Day) (wallet : Address)
    (L : List SigRecord) (T : Sig → TxJson) (api : ApiState) (c : Option Sig)
    (hday : api.lastApiReset = today) (hq : api.apiCallsToday < DAILY_LIMIT) :
    (incrementalScan today wallet (happyEnv L T) api c).2.signatures
        = getSignaturesPage L c 1000 ∧
    (incrementalScan today wallet (happyEnv L T) api c).2.newSignature
        = (getSignaturesPage L c 1000).head?.map (fun r => r.signature) :=
  incrementalScan_page today wallet L T api c _ (fetchWithRetry_ok today api hday hq)

/-- C1 amended: provided the transport succeeds, quota is available and
at most 1000 (the single page limit) transactions are strictly newer
than the stored checkpoint, the incremental scan iterates exactly the
strictly-newer transactions — none at or older than the checkpoint,
none newer missed — and the coordinator persists
`lastProcessedSignature` advanced to the newest signature observed, or
unchanged when none were found. -/
theorem c1_incremental_scan_checkpoint (wallet : Address) (L : List SigRecord)
    (T : Sig → TxJson) (api : ApiState) (today : Day) (force : Bool)
    (now : Timestamp) (elapsedMs : Nat) (st : ServerState) (disk : Option PersistedData)
    (hday : api.lastApiReset = today) (hq : api.apiCallsToday < DAILY_LIMIT)
    (hrun : st.running = false)
    (hlen : (newSignaturesSince L (loadData today disk).lastProcessedSignature).length
      ≤ 1000) :
    ((incrementalScan today wallet (happyEnv L T) api
        (loadData today disk).lastProcessedSignature).2.signatures
      = newSignaturesSince L (loadData today disk).lastProcessedSignature) ∧
    ((incrementalScan today wallet (happyEnv L T) api
        (loadData today disk).lastProcessedSignature).2.newSignature
      = (newSignaturesSince L (loadData today disk).lastProcessedSignature).head?.map
          (fun r => r.signature)) ∧
    (persistedCheckpoint (smartAnalysis wallet force now today elapsedMs (happyEnv L T)
        false st api disk).disk
      = match (newSignaturesSince L (loadData today disk).lastProcessedSignature).head? with
        | none => (loadData today disk).lastProcessedSignature
        | some r => some r.signature) := by
  have htake : getSignaturesPage L (loadData today disk).lastProcessedSignature 1000
      = newSignaturesSince L (loadData today disk).lastProcessedSignature :=
    List.take_of_length_le hlen
  have h1 := incrementalScan_happy today wallet L T api
    (loadData today disk).lastProcessedSignature hday hq
  refine ⟨htake ▸ h1.1, htake ▸ h1.2, ?_⟩
  rw [smartAnalysis, if_neg (by simp [hrun])]
  have h2 : (incrementalScan today wallet (happyEnv L T) api
      (loadData today disk).lastProcessedSignature).2.newSignature
      = (newSignaturesSince L (loadData today disk).lastProcessedSignature).head?.map
          (fun r => r.signature) := by
    rw [h1.2, htake]
  cases hh : (newSignaturesSince L (loadData today disk).lastProcessedSignature).head? with
  | none =>
    simp [saveData, persistedCheckpoint, mergeScan, fullScanStamp_checkpoint, h2, hh,
      Option.or]
  | some r =>
    simp [saveData, persistedCheckpoint, mergeScan, fullScanStamp_checkpoint, h2, hh,
      Option.or]

/-- A ledger holding 1001 transactions strictly newer than checkpoint
signature 1001 (signature 0 is the newest). -/
def bigLedger : List SigRecord := (List.range 1002).map (fun i => ⟨i, false, none⟩)

set_option maxRecDepth 40000 in
/-- Counterexample for C1 as stated: with 1001 transactions strictly
newer than the checkpoint (signature 1001), the scan's single page
iterates only 1000 of them — the strictly-newer record with signature
1000 is never processed — while the checkpoint still advances to the
newest signature 0, so the missed transaction is skipped forever. -/
theorem c1_counterexample_missed_transaction :
    (newSignaturesSince bigLedger (some 1001)).length = 1001 ∧
    ((incrementalScan 0 "W" (happyEnv bigLedger trivialTxJson) ⟨0, 0⟩
        (some 1001)).2.signatures).length = 1000 ∧
    (⟨1000, false, none⟩ : SigRecord) ∈ newSignaturesSince bigLedger (some 1001) ∧
    (⟨1000, false, none⟩ : SigRecord) ∉
      (incrementalScan 0 "W" (happyEnv bigLedger trivialTxJson) ⟨0, 0⟩
        (some 1001)).2.signatures ∧
    (incrementalScan 0 "W" (happyEnv bigLedger trivialTxJson) ⟨0, 0⟩
        (some 1001)).2.newSignature = some 0 := by
  have h := incrementalScan_happy 0 "W" bigLedger trivialTxJson ⟨0, 0⟩ (some 1001)
    rfl (by decide)
  rw [h.1, h.2]
  refine ⟨by decide, by decide, by decide, by decide, by decide⟩

/-- A two-transaction ledger, newest first. -/
def smallLedger : List SigRecord := [⟨7, false, none⟩, ⟨3, false, none⟩]

/-- A persisted record whose checkpoint is signature 3. -/
def p1 : PersistedData := ⟨0, 0, some 3, some 0, none, 0, 0⟩

/-- Witness for C1 amended: one strictly newer transaction (signature
7); the scan iterates exactly it and the persisted checkpoint advances
to 7. -/
theorem c1_incremental_scan_checkpoint_witness :
    (incrementalScan 0 "W" (happyEnv smallLedger trivialTxJson) ⟨0, 0⟩
        (loadData 0 (some p1)).lastProcessedSignature).2.signatures
      = [⟨7, false, none⟩] ∧
    (incrementalScan 0 "W" (happyEnv smallLedger trivialTxJson) ⟨0, 0⟩
        (loadData 0 (some p1)).lastProcessedSignature).2.newSignature = some 7 ∧
    persistedCheckpoint (smartAnalysis "W" false 9 0 0
        (happyEnv smallLedger trivialTxJson) false initialState ⟨0, 0⟩
        (some p1)).disk = some 7 := by
  have h := c1_incremental_scan_checkpoint "W" smallLedger trivialTxJson ⟨0, 0⟩ 0
    false 9 0 initialState (some p1) rfl (by decide) rfl (by decide)
  exact ⟨h.1.trans (by decide), h.2.1.trans (by decide), h.2.2.trans (by decide)⟩

/-! ### C6: monotone running total -/

/-- The per-transaction loop only ever adds to `newReceived` (and only
strictly positive balance changes are added). -/
theorem incLoop_newReceived_mono (today : Day) (wallet : Address) (env : RpcEnv) :
    ∀ (sigs : List SigRecord) (api : ApiState) (r c : Int) (p : Nat),
      r ≤ (incLoop today wallet env sigs api r c p).newReceived := by
  intro sigs
  induction sigs with
  | nil => intro api r c p; simp [incLoop]
  | cons sig rest ih =>
    intro api r c p
    simp only [incLoop]
    split
    · exact ih _ _ _ _
    · split
      · exact ih _ _ _ _
      · exact ih _ _ _ _
      · split
        · exact ih _ _ _ _
        · split
          · exact ih _ _ _ _
          · split
            · next bc hbc =>
              exact le_trans (by omega) (ih _ _ _ _)
            · exact ih _ _ _ _

/-- The incremental scan never reports a negative inbound amount. -/
theorem incrementalScan_newReceived_nonneg (today : Day) (wallet : Address)
    (env : RpcEnv) (api : ApiState) (c : Option Sig) :
    0 ≤ (incrementalScan today wallet env api c).2.newReceived := by
  simp only [incrementalScan]
  split
  · simp
  · simp
  · split
    · simp
    · split
      · simp
      · simpa using incLoop_newReceived_mono today wallet env _ _ 0 0 0

/-- The persisted total coincides with the loaded total. -/
theorem persistedTotal_loadData (today : Day) (disk : Option PersistedData) :
    persistedTotal disk = (loadData today disk).totalSOL := by
  cases disk <;> rfl

/-- One coordinator run never decreases the persisted total. -/
theorem smartAnalysis_total_mono (wallet : Address) (force : Bool) (now : Timestamp)
    (nowDay : Day) (elapsedMs : Nat) (env : RpcEnv) (ioFail : Bool)
    (st : ServerState) (api : ApiState) (disk : Option PersistedData) :
    persistedTotal disk ≤
      persistedTotal (smartAnalysis wallet force now nowDay elapsedMs env ioFail
        st api disk).disk := by
  rw [smartAnalysis]
  split
  · exact le_refl _
  · simp only [saveData]
    split
    · exact le_refl _
    · rw [persistedTotal_loadData nowDay disk]
      simp only [persistedTotal, mergeScan, fullScanStamp_totalSOL, jsOrQ_eq]
      refine le_add_of_nonneg_right ?_
      refine div_nonneg ?_ (by norm_num)
      exact_mod_cast incrementalScan_newReceived_nonneg nowDay wallet env api _

/-- C6: across every sequence of coordinator runs the persisted running
total is monotonically non-decreasing; each incremental scan reports a
non-negative inbound sum (only strictly positive per-transaction
deltas are accumulated by `incLoop`), and no single run decreases the
persisted total. -/
theorem c6_total_monotone :
    (∀ (runs : List ScanInput) (o : ScanOutcome),
      persistedTotal o.disk ≤ persistedTotal (runScans runs o).disk) ∧
    (∀ (today : Day) (wallet : Address) (env : RpcEnv) (api : ApiState) (c : Option Sig),
      0 ≤ (incrementalScan today wallet env api c).2.newReceived) ∧
    (∀ (wallet : Address) (force : Bool) (now : Timestamp) (nowDay : Day)
      (elapsedMs : Nat) (env : RpcEnv) (ioFail : Bool) (st : ServerState)
      (api : ApiState) (disk : Option PersistedData),
      persistedTotal disk ≤
        persistedTotal (smartAnalysis wallet force now nowDay elapsedMs env ioFail
          st api disk).disk) := by
  refine ⟨?_, incrementalScan_newReceived_nonneg, smartAnalysis_total_mono⟩
  intro runs
  induction runs with
  | nil => intro o; exact le_refl _
  | cons inp rest ih =>
    intro o
    refine le_trans ?_ (ih (runScan inp o))
    exact smartAnalysis_total_mono inp.wallet inp.force inp.now inp.nowDay inp.elapsedMs
      inp.env inp.ioFail o.state o.api o.disk

/-! ### C8: idempotent incremental rescan -/

/-- Loading an existing persisted record returns it unchanged. -/
theorem loadData_some (today : Day) (u : PersistedData) : loadData today (some u) = u := rfl

/-- On a day rollover the quota check resets the counter, so the first
attempt against the always-200 transport succeeds. -/
theorem fetchWithRetryGo_ok_reset (today : Day) (api : ApiState) (maxRetries fc : Nat)
    (hd : api.lastApiReset ≠ today) :
    ∀ n, fetchWithRetryGo today okNet maxRetries (n + 1) api fc =
      ⟨⟨1, today⟩, fc + 1, .ok (some 200)⟩ := by
  intro n
  have hd2 : today ≠ api.lastApiReset := fun h => hd h.symm
  have hcan : canMakeApiCall today api = (⟨0, today⟩, true) := by
    simp [canMakeApiCall, hd2, DAILY_LIMIT]
  have htrack : trackApiCall today (⟨0, today⟩ : ApiState) = ⟨1, today⟩ := by
    simp [trackApiCall]
  simp [fetchWithRetryGo, hcan, htrack, okNet]

/-- Against the always-200 transport a call either fails on an
exhausted same-day quota, leaving the state untouched, or succeeds with
the counter stamped to today. -/
theorem fetchWithRetry_okNet_cases (today : Day) (api : ApiState) :
    (fetchWithRetry today okNet 3 api = ⟨api, 0, .error .quotaExceeded⟩ ∧
      api.lastApiReset = today ∧ DAILY_LIMIT ≤ api.apiCallsToday) ∨
    (∃ n, fetchWithRetry today okNet 3 api = ⟨⟨n + 1, today⟩, 1, .ok (some 200)⟩) := by
  by_cases hd : api.lastApiReset = today
  · by_cases hq : api.apiCallsToday < DAILY_LIMIT
    · exact Or.inr ⟨api.apiCallsToday, fetchWithRetry_ok today api hd hq⟩
    · exact Or.inl ⟨fetchWithRetry_quota today okNet 3 api hd (by omega) (by omega), hd,
        by omega⟩
  · exact Or.inr ⟨0, fetchWithRetryGo_ok_reset today api 3 0 hd 2⟩

/-- When nothing is strictly newer than the checkpoint, the incremental
scan returns the zero result on every quota state. -/
theorem incrementalScan_no_new (today : Day) (wallet : Address) (L : List SigRecord)
    (T : Sig → TxJson) (api : ApiState) (c : Option Sig)
    (hc : newSignaturesSince L c = []) :
    (incrementalScan today wallet (happyEnv L T) api c).2 = ⟨0, 0, none, [], 0⟩ := by
  have hpage : getSignaturesPage L c 1000 = [] := by
    rw [getSignaturesPage, hc]
    rfl
  rcases fetchWithRetry_okNet_cases today api with ⟨hf, -, -⟩ | ⟨n, hf⟩
  · rw [incrementalScan, show (happyEnv L T).sigNet = okNet from rfl, hf]
  · rw [incrementalScan, show (happyEnv L T).sigNet = okNet from rfl, hf]
    simp [respOk, happyEnv, hpage]

/-- After advancing the checkpoint to the newest signature of the page
the scan just iterated (or keeping it when the page was empty), nothing
on the same ledger is strictly newer any more. -/
theorem newSignaturesSince_after_advance (L : List SigRecord) (c0 : Option Sig) :
    newSignaturesSince L
      (((getSignaturesPage L c0 1000).head?.map (fun r => r.signature)).or c0) = [] := by
  cases hL : getSignaturesPage L c0 1000 with
  | nil =>
    rw [getSignaturesPage] at hL
    rcases List.take_eq_nil_iff.mp hL with h | h
    · exact absurd h (by decide)
    · simpa [Option.or] using h
  | cons a rest =>
    simp only [List.head?_cons, Option.map_some', Option.or]
    rw [getSignaturesPage] at hL
    cases L with
    | nil =>
      exfalso
      cases c0 <;> simp [newSignaturesSince] at hL
    | cons b L2 =>
      have hb : a = b := by
        cases c0 with
        | none =>
          simp only [newSignaturesSince] at hL
          rw [show (1000 : Nat) = 999 + 1 from rfl, List.take_succ_cons] at hL
          injection hL with h1 h2
          exact h1.symm
        | some s =>
          simp only [newSignaturesSince, List.takeWhile_cons] at hL
          by_cases hbs : b.signature ≠ s
          · rw [if_pos (by simpa using hbs), show (1000 : Nat) = 999 + 1 from rfl,
              List.take_succ_cons] at hL
            injection hL with h1 h2
            exact h1.symm
          · rw [if_neg (by simpa using hbs)] at hL
            simp at hL
      subst hb
      simp only [newSignaturesSince]
      rw [List.takeWhile_cons, if_neg (by simp)]

/-- After a first incremental run over a fixed ledger, a second run on
the merged record finds nothing: either the checkpoint now sits at the
ledger's newest signature, or the first run failed on quota and the
second fails the same way. -/
theorem rescan_finds_nothing (wallet : Address) (L : List SigRecord) (T : Sig → TxJson)
    (api : ApiState) (d : Day) (c0 : Option Sig) (t1 : Timestamp) (pd : PersistedData)
    (hpd : pd.lastProcessedSignature = c0) (f2 : Bool) (t2 : Timestamp) :
    (incrementalScan d wallet (happyEnv L T)
        (incrementalScan d wallet (happyEnv L T) api c0).1
        (fullScanStamp f2 t2 (mergeScan t1
          (incrementalScan d wallet (happyEnv L T) api c0).1
          (incrementalScan d wallet (happyEnv L T) api c0).2 pd)).lastProcessedSignature).2
      = ⟨0, 0, none, [], 0⟩ := by
  rw [fullScanStamp_checkpoint]
  have hc2 : (mergeScan t1 (incrementalScan d wallet (happyEnv L T) api c0).1
      (incrementalScan d wallet (happyEnv L T) api c0).2 pd).lastProcessedSignature
      = ((incrementalScan d wallet (happyEnv L T) api c0).2.newSignature).or c0 := by
    simp [mergeScan, hpd]
  rw [hc2]
  rcases fetchWithRetry_okNet_cases d api with ⟨hf1, hd1, hq1⟩ | ⟨n, hf1⟩
  · have hinc1 : incrementalScan d wallet (happyEnv L T) api c0
        = (api, ⟨0, 0, none, [], 0⟩) := by
      rw [incrementalScan, show (happyEnv L T).sigNet = okNet from rfl, hf1]
    rw [hinc1]
    simp only [Option.or]
    have hf2 := fetchWithRetry_quota d okNet 3 api hd1 hq1 (by omega)
    rw [incrementalScan, show (happyEnv L T).sigNet = okNet from rfl, hf2]
  · rw [(incrementalScan_page d wallet L T api c0 _ hf1).2]
    exact incrementalScan_no_new d wallet L T _ _
      (newSignaturesSince_after_advance L c0)

/-- The full else-branch of one coordinator run, as a single record. -/
theorem smartAnalysis_components (wallet : Address) (force : Bool) (now : Timestamp)
    (nowDay : Day) (elapsedMs : Nat) (env : RpcEnv) (st : ServerState) (api : ApiState)
    (disk : Option PersistedData) (h : st.running = false) :
    smartAnalysis wallet force now nowDay elapsedMs env false st api disk =
      ⟨⟨false,
        some (mergeScan now
          (incrementalScan nowDay wallet env api
            (fullScanStamp force now (loadData nowDay disk)).lastProcessedSignature).1
          (incrementalScan nowDay wallet env api
            (fullScanStamp force now (loadData nowDay disk)).lastProcessedSignature).2
          (fullScanStamp force now (loadData nowDay disk))).totalSOL,
        some now, elapsedMs,
        (mergeScan now
          (incrementalScan nowDay wallet env api
            (fullScanStamp force now (loadData nowDay disk)).lastProcessedSignature).1
          (incrementalScan nowDay wallet env api
            (fullScanStamp force now (loadData nowDay disk)).lastProcessedSignature).2
          (fullScanStamp force now (loadData nowDay disk))).transactionCount,
        (incrementalScan nowDay wallet env api
          (fullScanStamp force now (loadData nowDay disk)).lastProcessedSignature).1.apiCallsToday⟩,
       (incrementalScan nowDay wallet env api
         (fullScanStamp force now (loadData nowDay disk)).lastProcessedSignature).1,
       some (mergeScan now
         (incrementalScan nowDay wallet env api
           (fullScanStamp force now (loadData nowDay disk)).lastProcessedSignature).1
         (incrementalScan nowDay wallet env api
           (fullScanStamp force now (loadData nowDay disk)).lastProcessedSignature).2
         (fullScanStamp force now (loadData nowDay disk)))⟩ := by
  rw [smartAnalysis, if_neg (by simp [h])]
  rfl

/-- C8: running the incremental coordinator twice in a row against the
same upstream ledger (no new transactions between the runs) leaves the
persisted running total, the persisted checkpoint and the in-memory
total unchanged after the second run. -/
theorem c8_idempotent_rescan (wallet : Address) (L : List SigRecord) (T : Sig → TxJson)
    (st : ServerState) (api : ApiState) (disk : Option PersistedData)
    (d : Day) (t1 t2 : Timestamp) (e1 e2 : Nat) (f1 f2 : Bool) :
    persistedTotal (smartAnalysis wallet f2 t2 d e2 (happyEnv L T) false
        (smartAnalysis wallet f1 t1 d e1 (happyEnv L T) false st api disk).state
        (smartAnalysis wallet f1 t1 d e1 (happyEnv L T) false st api disk).api
        (smartAnalysis wallet f1 t1 d e1 (happyEnv L T) false st api disk).disk).disk
      = persistedTotal
          (smartAnalysis wallet f1 t1 d e1 (happyEnv L T) false st api disk).disk ∧
    persistedCheckpoint (smartAnalysis wallet f2 t2 d e2 (happyEnv L T) false
        (smartAnalysis wallet f1 t1 d e1 (happyEnv L T) false st api disk).state
        (smartAnalysis wallet f1 t1 d e1 (happyEnv L T) false st api disk).api
        (smartAnalysis wallet f1 t1 d e1 (happyEnv L T) false st api disk).disk).disk
      = persistedCheckpoint
          (smartAnalysis wallet f1 t1 d e1 (happyEnv L T) false st api disk).disk ∧
    (smartAnalysis wallet f2 t2 d e2 (happyEnv L T) false
        (smartAnalysis wallet f1 t1 d e1 (happyEnv L T) false st api disk).state
        (smartAnalysis wallet f1 t1 d e1 (happyEnv L T) false st api disk).api
        (smartAnalysis wallet f1 t1 d e1 (happyEnv L T) false st api disk).disk).state.totalSOL
      = (smartAnalysis wallet f1 t1 d e1 (happyEnv L T) false st api disk).state.totalSOL := by
  by_cases hrun : st.running = true
  · simp [smartAnalysis, hrun]
  · have hrunf : st.running = false := by simpa using hrun
    have hz := rescan_finds_nothing wallet L T api d
      (fullScanStamp f1 t1 (loadData d disk)).lastProcessedSignature t1
      (fullScanStamp f1 t1 (loadData d disk)) rfl f2 t2
    rw [smartAnalysis_components wallet f1 t1 d e1 (happyEnv L T) st api disk hrunf]
    rw [smartAnalysis_components wallet f2 t2 d e2 (happyEnv L T) _ _ _ rfl]
    simp only [loadData_some]
    rw [hz]
    simp [mergeScan, jsOrQ_eq, jsOrZ_eq, persistedTotal, persistedCheckpoint,
      fullScanStamp_totalSOL, fullScanStamp_transactionCount, fullScanStamp_checkpoint,
      Option.or]

/-! ### C10: swallowed persistence failures -/

/-- C10: `saveData` swallows write failures (it returns normally,
leaving the previous contents on disk), and a coordinator run with a
failing disk write produces exactly the same in-memory state and quota
counters as a successful one — the run is still reported as a success,
with `running` cleared and `lastUpdated` stamped — while the persisted
record is updated only when the write succeeds, so a failed run's
progress is silently absent from disk for the next load. -/
theorem c10_save_failure_swallowed (wallet : Address) (force : Bool) (now : Timestamp)
    (nowDay : Day) (elapsedMs : Nat) (env : RpcEnv) (st : ServerState) (api : ApiState)
    (disk : Option PersistedData) (ioFail : Bool) (hrun : st.running = false) :
    (∀ (dk : Option PersistedData) (d0 : PersistedData), saveData dk d0 true = (dk, false)) ∧
    (smartAnalysis wallet force now nowDay elapsedMs env ioFail st api disk).state
      = (smartAnalysis wallet force now nowDay elapsedMs env false st api disk).state ∧
    (smartAnalysis wallet force now nowDay elapsedMs env ioFail st api disk).api
      = (smartAnalysis wallet force now nowDay elapsedMs env false st api disk).api ∧
    (smartAnalysis wallet force now nowDay elapsedMs env ioFail st api disk).disk
      = (if ioFail then disk
         else (smartAnalysis wallet force now nowDay elapsedMs env false st api disk).disk) ∧
    (smartAnalysis wallet force now nowDay elapsedMs env ioFail st api disk).state.running
      = false ∧
    (smartAnalysis wallet force now nowDay elapsedMs env ioFail st api
        disk).state.lastUpdated = some now := by
  refine ⟨fun dk d0 => rfl, ?_⟩
  simp only [smartAnalysis, hrun]
  cases ioFail <;> simp [saveData]

/-- Witness for C10 at a concrete failing write: the disk keeps its
old record, yet the in-memory state equals the successful run's and
reports success. -/
theorem c10_save_failure_swallowed_witness :
    saveData (some cexP) p1 true = (some cexP, false) ∧
    (smartAnalysis "W" false 5 0 0 (happyEnv [] trivialTxJson) true
        initialState ⟨0, 0⟩ (some cexP)).disk = some cexP ∧
    (smartAnalysis "W" false 5 0 0 (happyEnv [] trivialTxJson) true
        initialState ⟨0, 0⟩ (some cexP)).state
      = (smartAnalysis "W" false 5 0 0 (happyEnv [] trivialTxJson) false
        initialState ⟨0, 0⟩ (some cexP)).state ∧
    (smartAnalysis "W" false 5 0 0 (happyEnv [] trivialTxJson) true
        initialState ⟨0, 0⟩ (some cexP)).state.lastUpdated = some 5 := by
  have h := c10_save_failure_swallowed "W" false 5 0 0 (happyEnv [] trivialTxJson)
    initialState ⟨0, 0⟩ (some cexP) true rfl
  exact ⟨h.1 (some cexP) p1, by simpa using h.2.2.2.1, h.2.1, h.2.2.2.2.2⟩

end SolTracker
